import Mathlib

/- Verification development for the expression/template engine of the rapidpro
   repository.  The engine itself (`expressions.evaluator` together with the
   compatibility wrappers `temba.utils.expression_compat`) is not among the
   provided source files; only its conformance test-suite
   (src/temba/utils/tests.py) is.  The definitions below are therefore
   modelled from the specification (spec.md sections 3, 4, 6, 7) and checked
   against the expected values of that test-suite.  Decimal values are
   modelled as exact rationals, DateTime values as a (day number, optional
   seconds of day) pair in the evaluation timezone (all conformance cases use
   UTC), and the evaluation context as the flat dotted-path-to-value mapping
   that the specification prescribes. -/

namespace Rapidpro

/-- The double-quote character (written via its code point to keep source
scanning simple). -/
def dquoteChar : Char := Char.ofNat 34

/-- The single-quote character. -/
def squoteChar : Char := Char.ofNat 39

/-- Modelled from the spec: number of days between 1970-01-01 and the given
proleptic-Gregorian civil date (the standard era-based conversion). -/
def daysFromCivil (y m d : Int) : Int :=
  let y2 : Int := if m ≤ 2 then y - 1 else y
  let era : Int := Int.fdiv y2 400
  let yoe : Int := y2 - era * 400
  let mp : Int := Int.emod (m + 9) 12
  let doy : Int := (153 * mp + 2) / 5 + d - 1
  let doe : Int := yoe * 365 + yoe / 4 - yoe / 100 + doy
  era * 146097 + doe - 719468

/-- Modelled from the spec: inverse of `daysFromCivil`, returning
(year, month, day). -/
def civilFromDays (z0 : Int) : Int × Int × Int :=
  let z : Int := z0 + 719468
  let era : Int := Int.fdiv z 146097
  let doe : Int := z - era * 146097
  let yoe : Int := (doe - doe / 1460 + doe / 36524 - doe / 146096) / 365
  let y : Int := yoe + era * 400
  let doy : Int := doe - (365 * yoe + yoe / 4 - yoe / 100)
  let mp : Int := (5 * doy + 2) / 153
  let d : Int := doy - (153 * mp + 2) / 5 + 1
  let m : Int := if mp < 10 then mp + 3 else mp - 9
  (if m ≤ 2 then y + 1 else y, m, d)

/-- Euclidean algorithm with explicit fuel (any concrete argument in this
development terminates within far fewer steps than the fuel provided). -/
def natGcdAux : Nat → Nat → Nat → Nat
  | 0, _, b => b
  | _ + 1, 0, b => b
  | fuel + 1, a + 1, b => natGcdAux fuel (b % (a + 1)) (a + 1)

/-- Greatest common divisor, computable by kernel reduction. -/
def natGcd (a b : Nat) : Nat := natGcdAux 128 a b

/-- Modelled from the spec: an arbitrary-precision Decimal value, kept as an
exact fraction in lowest terms with a positive denominator. -/
structure Dec where
  num : Int
  den : Nat
  deriving DecidableEq, Repr

/-- Build a Decimal from a numerator and a positive denominator, reducing to
lowest terms. -/
def mkDec (n : Int) (d : Nat) : Dec :=
  if d = 0 then ⟨0, 1⟩
  else
    let g := natGcd n.natAbs d
    if g = 0 then ⟨0, 1⟩ else ⟨n / (g : Int), d / g⟩

/-- Decimal from an integer. -/
def Dec.ofInt (n : Int) : Dec := ⟨n, 1⟩

/-- Decimal addition. -/
def Dec.add (a b : Dec) : Dec := mkDec (a.num * b.den + b.num * a.den) (a.den * b.den)

/-- Decimal subtraction. -/
def Dec.sub (a b : Dec) : Dec := mkDec (a.num * b.den - b.num * a.den) (a.den * b.den)

/-- Decimal multiplication. -/
def Dec.mul (a b : Dec) : Dec := mkDec (a.num * b.num) (a.den * b.den)

/-- Decimal division (the caller rules out a zero divisor). -/
def Dec.div (a b : Dec) : Dec :=
  if b.num < 0 then mkDec (-(a.num * b.den)) (a.den * (-b.num).toNat)
  else mkDec (a.num * b.den) (a.den * b.num.toNat)

/-- Decimal negation. -/
def Dec.neg (a : Dec) : Dec := ⟨-a.num, a.den⟩

/-- Is the Decimal zero? -/
def Dec.isZero (a : Dec) : Bool := a.num = 0

/-- Decimal strict order (denominators are positive). -/
def Dec.lt (a b : Dec) : Bool := a.num * b.den < b.num * a.den

/-- Decimal natural power. -/
def Dec.npow (a : Dec) : Nat → Dec
  | 0 => ⟨1, 1⟩
  | n + 1 => (Dec.npow a n).mul a

/-- A DateTime value: a day number (days since 1970-01-01) plus, for
instants as opposed to plain dates, the second of the day. -/
structure DT where
  day : Int
  tod : Option Int
  deriving DecidableEq, Repr

/-- Modelled from the spec: the tagged value union
{Decimal, String, DateTime, Boolean} plus the time-of-day duration values
produced by the TIME function (carried as a signed number of seconds). -/
inductive Val where
  | dec (q : Dec)
  | str (s : String)
  | dt (d : DT)
  | bool (b : Bool)
  | tim (secs : Int)
  deriving DecidableEq, Repr

/-- Modelled from the spec: the DateStyle disambiguating slash/dash separated
date literals. -/
inductive DateStyle where
  | dayFirst
  | monthFirst
  deriving DecidableEq, Repr

/-- Modelled from the spec: the immutable evaluation context: a mapping from
dotted variable paths to values plus the DateStyle (the evaluation timezone is
UTC in every conformance case and is omitted). -/
structure EvaluationContext where
  vars : List (String × Val)
  dateStyle : DateStyle

/-- Lowercase a string (character-wise, kernel-computable). -/
def toLowerStr (s : String) : String := String.mk (s.data.map Char.toLower)

/-- Uppercase a string (character-wise, kernel-computable). -/
def toUpperStr (s : String) : String := String.mk (s.data.map Char.toUpper)

/-- Decimal digit rendering of a natural number (kernel-computable). -/
def natToStrAux : Nat → Nat → List Char
  | 0, _ => []
  | fuel + 1, n =>
    if n < 10 then [Char.ofNat (48 + n)]
    else natToStrAux fuel (n / 10) ++ [Char.ofNat (48 + n % 10)]

/-- Decimal rendering of a natural number. -/
def natToStr (n : Nat) : String := String.mk (natToStrAux (n + 1) n)

/-- Numeric value of a digit character. -/
def digitVal (c : Char) : Nat := c.toNat - 48

/-- Natural number denoted by a list of digit characters. -/
def natOfDigits (ds : List Char) : Nat := ds.foldl (fun a c => 10 * a + digitVal c) 0

/-- Fractional digits of `rem / den`, most significant first, stopping at an
exact representation (or after the fuel runs out). -/
def fracDigits : Nat → Nat → Nat → String
  | 0, _, _ => ""
  | _ + 1, 0, _ => ""
  | fuel + 1, rem, den =>
    let d := rem * 10 / den
    let r2 := rem * 10 % den
    String.singleton (Char.ofNat (48 + d)) ++ fracDigits fuel r2 den

/-- Modelled from the spec: canonical stringification of a Decimal — shortest
exact decimal representation, trailing zeros and a trailing point stripped. -/
def formatDecimal (q : Dec) : String :=
  let sign := if q.num < 0 then "-" else ""
  let n := q.num.natAbs
  let den := q.den
  let ip := n / den
  let rem := n % den
  if rem = 0 then sign ++ natToStr ip
  else sign ++ natToStr ip ++ "." ++ fracDigits 28 rem den

/-- Modelled from the spec: parse a string as a Decimal (optional sign, digit
run, optional fractional digit run); any other shape is not numeric. -/
def parseDecStr (s : String) : Option Dec :=
  let cs0 := s.data
  let neg : Bool := match cs0 with
    | c :: _ => c = '-'
    | [] => false
  let cs := if neg then cs0.tail else cs0
  let ip := cs.takeWhile Char.isDigit
  let r := cs.dropWhile Char.isDigit
  if ip.isEmpty then none
  else
    let sgn : Int := if neg then -1 else 1
    match r with
    | [] => some (Dec.ofInt (sgn * (natOfDigits ip : Int)))
    | '.' :: fr =>
      if fr.isEmpty then none
      else if fr.all Char.isDigit then
        some (mkDec (sgn * ((natOfDigits ip * 10 ^ fr.length + natOfDigits fr : Nat) : Int))
          (10 ^ fr.length))
      else none
    | _ => none

/-- Two-digit zero-padded rendering of a natural number. -/
def pad2 (n : Nat) : String := if n < 10 then "0" ++ natToStr n else natToStr n

/-- Modelled from the spec: canonical stringification of a DateTime:
DD-MM-YYYY, followed for instants by HH:MM and, when non-zero, seconds. -/
def formatDT (d : DT) : String :=
  let c := civilFromDays d.day
  let datePart := pad2 c.2.2.toNat ++ "-" ++ pad2 c.2.1.toNat ++ "-" ++ natToStr c.1.toNat
  match d.tod with
  | none => datePart
  | some s =>
    let sn := s.toNat
    datePart ++ " " ++ pad2 (sn / 3600) ++ ":" ++ pad2 (sn % 3600 / 60) ++
      (if sn % 60 = 0 then "" else ":" ++ pad2 (sn % 60))

/-- Modelled from the spec: canonical stringification of any value (used for
substitution, string concatenation and string-typed coercions). -/
def valToStr : Val → String
  | .dec q => formatDecimal q
  | .str s => s
  | .dt d => formatDT d
  | .bool b => if b then "TRUE" else "FALSE"
  | .tim s =>
    let sn := (Int.emod s 86400).toNat
    pad2 (sn / 3600) ++ ":" ++ pad2 (sn % 3600 / 60) ++ ":" ++ pad2 (sn % 60)

/-- Look a dotted path up in the context mapping. -/
def lookupVar (ctx : EvaluationContext) (p : String) : Option Val :=
  List.lookup p ctx.vars

/-- A root (first path segment) is defined when the context maps it or any
dotted path below it. -/
def rootDefined (ctx : EvaluationContext) (root : String) : Bool :=
  ctx.vars.any (fun kv => kv.1 == root || List.isPrefixOf (root ++ ".").data kv.1.data)

/-- Parse an optional H:MM or H:MM:SS time-of-day, as seconds of the day. -/
def parseTimePart (cs : List Char) : Option Int :=
  let h := cs.takeWhile Char.isDigit
  let r := cs.dropWhile Char.isDigit
  if h.isEmpty then none
  else
    match r with
    | ':' :: r2 =>
      let mi := r2.takeWhile Char.isDigit
      let r3 := r2.dropWhile Char.isDigit
      if mi.isEmpty then none
      else
        match r3 with
        | [] => some ((natOfDigits h : Int) * 3600 + (natOfDigits mi : Int) * 60)
        | ':' :: r4 =>
          let se := r4.takeWhile Char.isDigit
          let r5 := r4.dropWhile Char.isDigit
          if se.isEmpty ∨ ¬ r5.isEmpty then none
          else some ((natOfDigits h : Int) * 3600 + (natOfDigits mi : Int) * 60 + (natOfDigits se : Int))
        | _ => none
    | _ => none

/-- Modelled from the spec: parse a slash/dash separated date literal, with an
optional time of day, disambiguated by the DateStyle; two-digit years are
taken in the 2000s. -/
def parseDateStr (style : DateStyle) (s : String) : Option DT :=
  let cs := s.data
  let dpart := cs.takeWhile (fun c => c ≠ ' ')
  let rest := cs.dropWhile (fun c => c ≠ ' ')
  let n1 := dpart.takeWhile Char.isDigit
  let r1 := dpart.dropWhile Char.isDigit
  if n1.isEmpty then none
  else
    match r1 with
    | s1 :: r1b =>
      if s1 = '/' ∨ s1 = '-' then
        let n2 := r1b.takeWhile Char.isDigit
        let r2 := r1b.dropWhile Char.isDigit
        if n2.isEmpty then none
        else
          match r2 with
          | s2 :: r2b =>
            if s2 = '/' ∨ s2 = '-' then
              let n3 := r2b.takeWhile Char.isDigit
              let r3 := r2b.dropWhile Char.isDigit
              if n3.isEmpty ∨ ¬ r3.isEmpty then none
              else
                let a := natOfDigits n1
                let b := natOfDigits n2
                let dd := match style with | .dayFirst => a | .monthFirst => b
                let mm := match style with | .dayFirst => b | .monthFirst => a
                let y0 := natOfDigits n3
                let y := if y0 < 100 then y0 + 2000 else y0
                if 1 ≤ dd ∧ dd ≤ 31 ∧ 1 ≤ mm ∧ mm ≤ 12 then
                  match rest with
                  | [] => some ⟨daysFromCivil (y : Int) (mm : Int) (dd : Int), none⟩
                  | _ :: t =>
                    match parseTimePart t with
                    | some secs => some ⟨daysFromCivil (y : Int) (mm : Int) (dd : Int), some secs⟩
                    | none => none
                else none
            else none
          | [] => none
      else none
    | [] => none

/-- Modelled from the spec: coercion of a value to Decimal (Decimals
themselves and numeric Strings). -/
def toDec : Val → Option Dec
  | .dec q => some q
  | .str s => parseDecStr s
  | _ => none

/-- Modelled from the spec: coercion of a value to DateTime (DateTimes
themselves and date-like Strings, parsed with the context DateStyle). -/
def toDate (ctx : EvaluationContext) : Val → Option DT
  | .dt d => some d
  | .str s => parseDateStr ctx.dateStyle s
  | _ => none

/-- Truncate a rational toward zero to an integer (whole-days coercion). -/
def truncToInt (q : Dec) : Int := q.num / (q.den : Int)

/-- Add a whole number of days to a DateTime. -/
def dtAddDays (d : DT) (n : Int) : DT := ⟨d.day + n, d.tod⟩

/-- Add a signed number of seconds to a DateTime, carrying into the day. -/
def dtAddSecs (d : DT) (delta : Int) : DT :=
  let tot := d.tod.getD 0 + delta
  ⟨d.day + Int.fdiv tot 86400, some (Int.emod tot 86400)⟩

/-- Modelled from the spec: the error kinds of section 7, each carrying what
its message needs. -/
inductive EvalErr where
  | undefinedVariable (path : String)
  | undefinedFunction (name : String)
  | tooFewArguments (name : String)
  | tooManyArguments (name : String)
  | typeMismatch
  | divisionByZero
  | functionError (name : String) (args : String)
  | parseError (fragment : String)
  | internal
  deriving DecidableEq, Repr

/-- Modelled from the spec: the human-readable message of each error kind, as
surfaced in a render result. -/
def EvalErr.message : EvalErr → String
  | .undefinedVariable p => "Undefined variable: " ++ p
  | .undefinedFunction n => "Undefined function: " ++ n
  | .tooFewArguments n => "Too few arguments provided for function " ++ n
  | .tooManyArguments n => "Too many arguments provided for function " ++ n
  | .typeMismatch => "Expression could not be evaluated as decimal or date arithmetic"
  | .divisionByZero => "Division by zero"
  | .functionError n a => "Error calling function " ++ n ++ " with arguments " ++ a
  | .parseError f => "Expression error at: " ++ f
  | .internal => "Expression error"

/-- Case-insensitive string equality. -/
def ciEq (a b : String) : Bool := toLowerStr a == toLowerStr b

/-- Lexicographic comparison of character lists over code points. -/
def lexCmp : List Char → List Char → Ordering
  | [], [] => .eq
  | [], _ :: _ => .lt
  | _ :: _, [] => .gt
  | a :: as, b :: bs =>
    if a.toNat < b.toNat then .lt
    else if b.toNat < a.toNat then .gt
    else lexCmp as bs

/-- Comparison key of a DateTime (a plain date counts as its midnight). -/
def dtKey (d : DT) : Int × Int := (d.day, d.tod.getD 0)

/-- Modelled from the spec: equality used by the = and <> operators:
case-insensitive String equality when both sides are String, else Decimal
equality when both coerce, else DateTime equality when both coerce, else
Boolean equality when both are Boolean; mismatched kinds compare unequal. -/
def valEq (ctx : EvaluationContext) (a b : Val) : Bool :=
  match a, b with
  | .str x, .str y => ciEq x y
  | _, _ =>
    match toDec a, toDec b with
    | some p, some q => p == q
    | _, _ =>
      match toDate ctx a, toDate ctx b with
      | some d1, some d2 => dtKey d1 == dtKey d2
      | _, _ =>
        match a, b with
        | .bool x, .bool y => x == y
        | _, _ => false

/-- Three-way comparison of Decimals. -/
def ratCmp (p q : Dec) : Ordering :=
  if p.lt q then .lt else if q.lt p then .gt else .eq

/-- Three-way comparison of integers. -/
def intCmp (p q : Int) : Ordering :=
  if p < q then .lt else if q < p then .gt else .eq

/-- Modelled from the spec: ordering used by < <= > >=: both operands must
coerce to the same one of Decimal, String (code-point lexicographic) or
DateTime; otherwise the comparison is a type mismatch. -/
def valCmp (ctx : EvaluationContext) (a b : Val) : Except EvalErr Ordering :=
  match toDec a, toDec b with
  | some p, some q => .ok (ratCmp p q)
  | _, _ =>
    match a, b with
    | .str x, .str y => .ok (lexCmp x.data y.data)
    | _, _ =>
      match toDate ctx a, toDate ctx b with
      | some d1, some d2 =>
        .ok (match intCmp (dtKey d1).1 (dtKey d2).1 with
          | .eq => intCmp (dtKey d1).2 (dtKey d2).2
          | o => o)
      | _, _ => .error .typeMismatch

/-- Modelled from the spec: + and - semantics: Decimal arithmetic when both
sides coerce to Decimal; date arithmetic when a side coerces to DateTime (a
Decimal operand counts as whole days, a TIME duration as a time-of-day
delta); otherwise a type mismatch. -/
def evalArith (ctx : EvaluationContext) (isAdd : Bool) (a b : Val) : Except EvalErr Val :=
  match toDec a, toDec b with
  | some p, some q => .ok (.dec (if isAdd then p.add q else p.sub q))
  | _, _ =>
    match toDate ctx a with
    | some d =>
      match b with
      | .tim s => .ok (.dt (dtAddSecs d (if isAdd then s else -s)))
      | _ =>
        match toDec b with
        | some q => .ok (.dt (dtAddDays d (if isAdd then truncToInt q else -(truncToInt q))))
        | none =>
          match toDate ctx b with
          | some d2 =>
            if isAdd then .error .typeMismatch
            else .ok (.dec (Dec.ofInt (d.day - d2.day)))
          | none => .error .typeMismatch
    | none =>
      match toDate ctx b with
      | some d2 =>
        match toDec a with
        | some q => if isAdd then .ok (.dt (dtAddDays d2 (truncToInt q))) else .error .typeMismatch
        | none => .error .typeMismatch
      | none => .error .typeMismatch

/-- Modelled from the spec: the binary operators of the grammar. -/
inductive BinOp where
  | add | sub | mul | div | pow | concat
  | beq | bneq | bgt | bge | blt | ble
  deriving DecidableEq, Repr

/-- Modelled from the spec: evaluation of one binary operator on two already
evaluated operands. -/
def evalBin (ctx : EvaluationContext) (op : BinOp) (a b : Val) : Except EvalErr Val :=
  match op with
  | .add => evalArith ctx true a b
  | .sub => evalArith ctx false a b
  | .mul =>
    match toDec a, toDec b with
    | some p, some q => .ok (.dec (p.mul q))
    | _, _ => .error .typeMismatch
  | .div =>
    match toDec a, toDec b with
    | some p, some q => if q.isZero then .error .divisionByZero else .ok (.dec (p.div q))
    | _, _ => .error .typeMismatch
  | .pow =>
    match toDec a, toDec b with
    | some p, some q =>
      if q.den = 1 then
        if 0 ≤ q.num then .ok (.dec (p.npow q.num.toNat))
        else if p.isZero then .error .divisionByZero
        else .ok (.dec (Dec.ofInt 1 |>.div (p.npow (-q.num).toNat)))
      else .error .typeMismatch
    | _, _ => .error .typeMismatch
  | .concat => .ok (.str (valToStr a ++ valToStr b))
  | .beq => .ok (.bool (valEq ctx a b))
  | .bneq => .ok (.bool (!(valEq ctx a b)))
  | .bgt =>
    match valCmp ctx a b with
    | .ok o => .ok (.bool (o == .gt))
    | .error e => .error e
  | .bge =>
    match valCmp ctx a b with
    | .ok o => .ok (.bool (o ≠ .lt))
    | .error e => .error e
  | .blt =>
    match valCmp ctx a b with
    | .ok o => .ok (.bool (o == .lt))
    | .error e => .error e
  | .ble =>
    match valCmp ctx a b with
    | .ok o => .ok (.bool (o ≠ .gt))
    | .error e => .error e

/-- Modelled from the spec: lexical atoms of an expression region. -/
inductive Tok where
  | num (q : Dec)
  | strt (s : String)
  | ident (s : String)
  | oper (o : BinOp)
  | lparen
  | rparen
  | comma
  deriving DecidableEq, Repr

/-- Source text of a binary operator, for error fragments. -/
def opText : BinOp → String
  | .add => "+" | .sub => "-" | .mul => "*" | .div => "/" | .pow => "^" | .concat => "&"
  | .beq => "=" | .bneq => "<>" | .bgt => ">" | .bge => ">=" | .blt => "<" | .ble => "<="

/-- Source text of a token, for error fragments. -/
def tokText : Tok → String
  | .num q => formatDecimal q
  | .strt s => s
  | .ident s => s
  | .oper o => opText o
  | .lparen => "("
  | .rparen => ")"
  | .comma => ","

/-- Does the character start an identifier? -/
def identStartChar (c : Char) : Bool := c.isAlpha || c = '_'

/-- Is the character an identifier character (as used for the at-sign
disambiguation)? -/
def identCharB (c : Char) : Bool := c.isAlphanum || c = '_'

/-- Is the character an identifier/path character? -/
def pathCharB (c : Char) : Bool := c.isAlphanum || c = '_' || c = '.'

/-- Scan the body of a double-quoted string literal, a doubled quote standing
for an embedded quote; returns the content and the remainder after the
closing quote, or none when unterminated. -/
def scanStrAux : Nat → List Char → Option (List Char × List Char)
  | 0, _ => none
  | _ + 1, [] => none
  | fuel + 1, c :: cs =>
    if c = dquoteChar then
      match cs with
      | d :: cs2 =>
        if d = dquoteChar then
          match scanStrAux fuel cs2 with
          | some (g, r) => some (dquoteChar :: g, r)
          | none => none
        else some ([], cs)
      | [] => some ([], [])
    else
      match scanStrAux fuel cs with
      | some (g, r) => some (c :: g, r)
      | none => none

/-- Modelled from the spec: tokenize one expression region: numbers, strings
(double-quoted, doubled-quote escape; single quotes are an error),
identifiers/dotted paths, operators, parens and commas, skipping
whitespace. -/
def tokenizeAux : Nat → List Char → Except EvalErr (List Tok)
  | 0, _ => .error .internal
  | _ + 1, [] => .ok []
  | fuel + 1, c :: cs =>
    if c.isWhitespace then tokenizeAux fuel cs
    else if c.isDigit then
      let ip := (c :: cs).takeWhile Char.isDigit
      let r := (c :: cs).dropWhile Char.isDigit
      match r with
      | '.' :: d :: r2 =>
        if d.isDigit then
          let fr := (d :: r2).takeWhile Char.isDigit
          let r3 := (d :: r2).dropWhile Char.isDigit
          match tokenizeAux fuel r3 with
          | .ok ts =>
            .ok (.num (mkDec ((natOfDigits ip * 10 ^ fr.length + natOfDigits fr : Nat) : Int)
              (10 ^ fr.length)) :: ts)
          | .error e => .error e
        else
          match tokenizeAux fuel r with
          | .ok ts => .ok (.num (Dec.ofInt (natOfDigits ip : Int)) :: ts)
          | .error e => .error e
      | _ =>
        match tokenizeAux fuel r with
        | .ok ts => .ok (.num (Dec.ofInt (natOfDigits ip : Int)) :: ts)
        | .error e => .error e
    else if identStartChar c then
      let run := (c :: cs).takeWhile pathCharB
      let r := (c :: cs).dropWhile pathCharB
      match tokenizeAux fuel r with
      | .ok ts => .ok (.ident (String.mk run) :: ts)
      | .error e => .error e
    else if c = dquoteChar then
      match scanStrAux (cs.length + 1) cs with
      | some (content, r) =>
        match tokenizeAux fuel r with
        | .ok ts => .ok (.strt (String.mk content) :: ts)
        | .error e => .error e
      | none => .error (.parseError (String.singleton dquoteChar))
    else if c = squoteChar then .error (.parseError (String.singleton squoteChar))
    else if c = '(' then
      match tokenizeAux fuel cs with
      | .ok ts => .ok (.lparen :: ts)
      | .error e => .error e
    else if c = ')' then
      match tokenizeAux fuel cs with
      | .ok ts => .ok (.rparen :: ts)
      | .error e => .error e
    else if c = ',' then
      match tokenizeAux fuel cs with
      | .ok ts => .ok (.comma :: ts)
      | .error e => .error e
    else if c = '+' then
      match tokenizeAux fuel cs with
      | .ok ts => .ok (.oper .add :: ts)
      | .error e => .error e
    else if c = '-' then
      match tokenizeAux fuel cs with
      | .ok ts => .ok (.oper .sub :: ts)
      | .error e => .error e
    else if c = '*' then
      match tokenizeAux fuel cs with
      | .ok ts => .ok (.oper .mul :: ts)
      | .error e => .error e
    else if c = '/' then
      match tokenizeAux fuel cs with
      | .ok ts => .ok (.oper .div :: ts)
      | .error e => .error e
    else if c = '^' then
      match tokenizeAux fuel cs with
      | .ok ts => .ok (.oper .pow :: ts)
      | .error e => .error e
    else if c = '&' then
      match tokenizeAux fuel cs with
      | .ok ts => .ok (.oper .concat :: ts)
      | .error e => .error e
    else if c = '=' then
      match tokenizeAux fuel cs with
      | .ok ts => .ok (.oper .beq :: ts)
      | .error e => .error e
    else if c = '<' then
      match cs with
      | '>' :: r =>
        match tokenizeAux fuel r with
        | .ok ts => .ok (.oper .bneq :: ts)
        | .error e => .error e
      | '=' :: r =>
        match tokenizeAux fuel r with
        | .ok ts => .ok (.oper .ble :: ts)
        | .error e => .error e
      | _ =>
        match tokenizeAux fuel cs with
        | .ok ts => .ok (.oper .blt :: ts)
        | .error e => .error e
    else if c = '>' then
      match cs with
      | '=' :: r =>
        match tokenizeAux fuel r with
        | .ok ts => .ok (.oper .bge :: ts)
        | .error e => .error e
      | _ =>
        match tokenizeAux fuel cs with
        | .ok ts => .ok (.oper .bgt :: ts)
        | .error e => .error e
    else .error (.parseError (String.singleton c))

/-- Tokenize an expression string. -/
def tokenize (s : String) : Except EvalErr (List Tok) :=
  tokenizeAux (s.data.length + 1) s.data

mutual
/-- Modelled from the spec: the expression tree: literals, variable
references, binary operators, unary minus and function calls. -/
inductive Expr where
  | lit (v : Val)
  | var (path : String)
  | bin (op : BinOp) (l r : Expr)
  | neg (e : Expr)
  | call (name : String) (args : ExprList)
  deriving Repr

/-- Argument list of a function call. -/
inductive ExprList where
  | nil
  | cons (e : Expr) (tl : ExprList)
  deriving Repr
end

/-- Parser level being parsed (precedence climbing). -/
inductive PMode where
  | cmp | addm | addTail | mulm | mulTail | pw | unaryMinus | primary | argsm
  deriving Repr

/-- Intermediate parse result: an expression, a tail of operator/operand
pairs for a left-associative level, or an argument list. -/
inductive PRes where
  | pe (e : Expr)
  | plist (ps : List (BinOp × Expr))
  | pargs (a : ExprList)

/-- Project a parse result onto an expression. -/
def asExpr : Except EvalErr (PRes × List Tok) → Except EvalErr (Expr × List Tok)
  | .ok (.pe e, ts) => .ok (e, ts)
  | .ok _ => .error .internal
  | .error e => .error e

/-- Project a parse result onto an operator/operand tail. -/
def asList : Except EvalErr (PRes × List Tok) → Except EvalErr (List (BinOp × Expr) × List Tok)
  | .ok (.plist ps, ts) => .ok (ps, ts)
  | .ok _ => .error .internal
  | .error e => .error e

/-- Project a parse result onto an argument list. -/
def asArgs : Except EvalErr (PRes × List Tok) → Except EvalErr (ExprList × List Tok)
  | .ok (.pargs a, ts) => .ok (a, ts)
  | .ok _ => .error .internal
  | .error e => .error e

/-- Is the operator a comparison (the lowest level)? -/
def isCmpOp : BinOp → Bool
  | .beq | .bneq | .bgt | .bge | .blt | .ble => true
  | _ => false

/-- Is the operator additive (including string concatenation)? -/
def isAddOp : BinOp → Bool
  | .add | .sub | .concat => true
  | _ => false

/-- Is the operator multiplicative? -/
def isMulOp : BinOp → Bool
  | .mul | .div => true
  | _ => false

/-- Fragment for a parse error at the given token position. -/
def headFrag : List Tok → String
  | [] => ""
  | t :: _ => tokText t

/-- Modelled from the spec: precedence-climbing recursive descent with the
grammar unary minus > right-associative power > multiplicative > additive
(with string concatenation) > a single, non-chaining comparison; function
calls take comma-separated arguments; TRUE and FALSE are case-insensitive
Boolean literals; a bare identifier is a variable reference. -/
def parseGo : Nat → PMode → List Tok → Except EvalErr (PRes × List Tok)
  | 0, _, _ => .error .internal
  | fuel + 1, m, ts =>
    match m with
    | .cmp =>
      match asExpr (parseGo fuel .addm ts) with
      | .error e => .error e
      | .ok (l, ts1) =>
        match ts1 with
        | .oper o :: ts2 =>
          if isCmpOp o then
            match asExpr (parseGo fuel .addm ts2) with
            | .error e => .error e
            | .ok (r, ts3) => .ok (.pe (.bin o l r), ts3)
          else .ok (.pe l, ts1)
        | _ => .ok (.pe l, ts1)
    | .addm =>
      match asExpr (parseGo fuel .mulm ts) with
      | .error e => .error e
      | .ok (l, ts1) =>
        match asList (parseGo fuel .addTail ts1) with
        | .error e => .error e
        | .ok (ps, ts2) => .ok (.pe (ps.foldl (fun acc p => .bin p.1 acc p.2) l), ts2)
    | .addTail =>
      match ts with
      | .oper o :: ts1 =>
        if isAddOp o then
          match asExpr (parseGo fuel .mulm ts1) with
          | .error e => .error e
          | .ok (r, ts2) =>
            match asList (parseGo fuel .addTail ts2) with
            | .error e => .error e
            | .ok (ps, ts3) => .ok (.plist ((o, r) :: ps), ts3)
        else .ok (.plist [], ts)
      | _ => .ok (.plist [], ts)
    | .mulm =>
      match asExpr (parseGo fuel .pw ts) with
      | .error e => .error e
      | .ok (l, ts1) =>
        match asList (parseGo fuel .mulTail ts1) with
        | .error e => .error e
        | .ok (ps, ts2) => .ok (.pe (ps.foldl (fun acc p => .bin p.1 acc p.2) l), ts2)
    | .mulTail =>
      match ts with
      | .oper o :: ts1 =>
        if isMulOp o then
          match asExpr (parseGo fuel .pw ts1) with
          | .error e => .error e
          | .ok (r, ts2) =>
            match asList (parseGo fuel .mulTail ts2) with
            | .error e => .error e
            | .ok (ps, ts3) => .ok (.plist ((o, r) :: ps), ts3)
        else .ok (.plist [], ts)
      | _ => .ok (.plist [], ts)
    | .pw =>
      match asExpr (parseGo fuel .unaryMinus ts) with
      | .error e => .error e
      | .ok (l, ts1) =>
        match ts1 with
        | .oper .pow :: ts2 =>
          match asExpr (parseGo fuel .pw ts2) with
          | .error e => .error e
          | .ok (r, ts3) => .ok (.pe (.bin .pow l r), ts3)
        | _ => .ok (.pe l, ts1)
    | .unaryMinus =>
      match ts with
      | .oper .sub :: ts1 =>
        match asExpr (parseGo fuel .unaryMinus ts1) with
        | .error e => .error e
        | .ok (e, ts2) => .ok (.pe (.neg e), ts2)
      | _ => parseGo fuel .primary ts
    | .primary =>
      match ts with
      | .num q :: r => .ok (.pe (.lit (.dec q)), r)
      | .strt s :: r => .ok (.pe (.lit (.str s)), r)
      | .ident s :: r =>
        if toUpperStr s = "TRUE" then .ok (.pe (.lit (.bool true)), r)
        else if toUpperStr s = "FALSE" then .ok (.pe (.lit (.bool false)), r)
        else
          match r with
          | .lparen :: r2 =>
            match asArgs (parseGo fuel .argsm r2) with
            | .error e => .error e
            | .ok (args, r3) => .ok (.pe (.call s args), r3)
          | _ => .ok (.pe (.var s), r)
      | .lparen :: r =>
        match asExpr (parseGo fuel .cmp r) with
        | .error e => .error e
        | .ok (e, r2) =>
          match r2 with
          | .rparen :: r3 => .ok (.pe e, r3)
          | _ => .error (.parseError (headFrag r2))
      | _ => .error (.parseError (headFrag ts))
    | .argsm =>
      match ts with
      | .rparen :: r => .ok (.pargs .nil, r)
      | _ =>
        match asExpr (parseGo fuel .cmp ts) with
        | .error e => .error e
        | .ok (e, ts1) =>
          match ts1 with
          | .comma :: ts2 =>
            match asArgs (parseGo fuel .argsm ts2) with
            | .error e => .error e
            | .ok (rest, ts3) => .ok (.pargs (.cons e rest), ts3)
          | .rparen :: ts2 => .ok (.pargs (.cons e .nil), ts2)
          | _ => .error (.parseError (headFrag ts1))

/-- Parse a whole token list as one expression, rejecting trailing tokens. -/
def parseExpression (ts : List Tok) : Except EvalErr Expr :=
  match asExpr (parseGo (8 * ts.length + 16) .cmp ts) with
  | .error e => .error e
  | .ok (e, rest) =>
    match rest with
    | [] => .ok e
    | t :: _ => .error (.parseError (tokText t))

/-- Modelled from the spec: the function registry arities (the members the
conformance claims exercise). -/
def fnArity (u : String) : Option (Nat × Nat) :=
  if u = "ABS" then some (1, 1)
  else if u = "UPPER" then some (1, 1)
  else if u = "LOWER" then some (1, 1)
  else if u = "LEN" then some (1, 1)
  else if u = "DATE" then some (3, 3)
  else if u = "TIME" then some (3, 3)
  else none

/-- Modelled from the spec: apply a registry function to evaluated arguments,
after case-insensitive resolution and arity checking. -/
def applyFunction (name : String) (vs : List Val) : Except EvalErr Val :=
  let u := toUpperStr name
  match fnArity u with
  | none => .error (.undefinedFunction name)
  | some (mn, mx) =>
    if vs.length < mn then .error (.tooFewArguments u)
    else if mx < vs.length then .error (.tooManyArguments u)
    else
      match u, vs with
      | "ABS", [v] =>
        match toDec v with
        | some q => .ok (.dec (if q.num < 0 then q.neg else q))
        | none => .error .typeMismatch
      | "UPPER", [v] => .ok (.str (toUpperStr (valToStr v)))
      | "LOWER", [v] => .ok (.str (toLowerStr (valToStr v)))
      | "LEN", [v] => .ok (.dec (Dec.ofInt ((valToStr v).length : Int)))
      | "DATE", [a, b, c] =>
        match toDec a, toDec b, toDec c with
        | some y, some mo, some d =>
          .ok (.dt ⟨daysFromCivil (truncToInt y) (truncToInt mo) (truncToInt d), none⟩)
        | _, _, _ => .error .typeMismatch
      | "TIME", [a, b, c] =>
        match toDec a, toDec b, toDec c with
        | some h, some mi, some s =>
          .ok (.tim (truncToInt h * 3600 + truncToInt mi * 60 + truncToInt s))
        | _, _, _ => .error .typeMismatch
      | _, _ => .error .internal

mutual
/-- Modelled from the spec: post-order evaluation of an expression tree
against the context. -/
def eval (ctx : EvaluationContext) : Expr → Except EvalErr Val
  | .lit v => .ok v
  | .var p =>
    match lookupVar ctx p with
    | some v => .ok v
    | none => .error (.undefinedVariable p)
  | .neg e =>
    match eval ctx e with
    | .ok v =>
      match toDec v with
      | some q => .ok (.dec q.neg)
      | none => .error .typeMismatch
    | .error er => .error er
  | .bin o l r =>
    match eval ctx l with
    | .ok a =>
      match eval ctx r with
      | .ok b => evalBin ctx o a b
      | .error er => .error er
    | .error er => .error er
  | .call name args =>
    match evalL ctx args with
    | .ok vs => applyFunction name vs
    | .error er => .error er

/-- Evaluate each argument of a call, left to right. -/
def evalL (ctx : EvaluationContext) : ExprList → Except EvalErr (List Val)
  | .nil => .ok []
  | .cons e tl =>
    match eval ctx e with
    | .ok v =>
      match evalL ctx tl with
      | .ok vs => .ok (v :: vs)
      | .error er => .error er
    | .error er => .error er
end

/-- Modelled from the spec: the expression entry point: tokenize, parse and
evaluate one expression string against a context. -/
def evaluate_expression (ctx : EvaluationContext) (s : String) : Except EvalErr Val :=
  match tokenize s with
  | .error e => .error e
  | .ok ts =>
    match parseExpression ts with
    | .error e => .error e
    | .ok e => eval ctx e

/-- Prepend a character to the consumed part of a scan result. -/
def consFst (c : Char) : Option (List Char × List Char) → Option (List Char × List Char)
  | some (g, r) => some (c :: g, r)
  | none => none

/-- Balanced-group scan worker: depth counts open parens, the flag tracks
being inside a string literal. -/
def scanBalAux : Nat → Bool → List Char → Option (List Char × List Char)
  | _, _, [] => none
  | depth, true, c :: cs =>
    if c = dquoteChar then consFst c (scanBalAux depth false cs)
    else consFst c (scanBalAux depth true cs)
  | depth, false, c :: cs =>
    if c = '(' then consFst c (scanBalAux (depth + 1) false cs)
    else if c = ')' then
      if depth = 1 then some ([c], cs)
      else consFst c (scanBalAux (depth - 1) false cs)
    else if c = dquoteChar then consFst c (scanBalAux depth true cs)
    else consFst c (scanBalAux depth false cs)

/-- Modelled from the spec: scan a parenthesized group (the list starts at
its opening paren), honoring nested parens and double-quoted string
literals; returns the group including both parens and the remainder, or none
when unbalanced. -/
def scanBal (cs : List Char) : Option (List Char × List Char) := scanBalAux 0 false cs

/-- Is the character usable in a legacy filter name? -/
def filterNameChar (c : Char) : Bool := c.isAlphanum || c = '_'

/-- Modelled from the spec: scan a legacy filter chain (zero or more
pipe-name segments, each optionally with a quoted argument); returns the
parsed filters, the verbatim consumed characters and the remainder. -/
def scanFiltersAux : Nat → List Char → List (String × Option String) × List Char × List Char
  | 0, cs => ([], [], cs)
  | fuel + 1, cs =>
    match cs with
    | c :: cs1 =>
      if c = '|' then
        let nm := cs1.takeWhile filterNameChar
        let r1 := cs1.dropWhile filterNameChar
        if nm.isEmpty then ([], [], cs)
        else
          match r1 with
          | ':' :: q :: r2 =>
            if q = dquoteChar then
              let arg := r2.takeWhile (fun ch => ch ≠ dquoteChar)
              let r3 := r2.dropWhile (fun ch => ch ≠ dquoteChar)
              match r3 with
              | _ :: r4 =>
                let t := scanFiltersAux fuel r4
                ((String.mk nm, some (String.mk arg)) :: t.1,
                  c :: (nm ++ ':' :: q :: (arg ++ [dquoteChar])) ++ t.2.1, t.2.2)
              | [] => ([(String.mk nm, none)], c :: nm, r1)
            else
              let t := scanFiltersAux fuel r1
              ((String.mk nm, none) :: t.1, c :: nm ++ t.2.1, t.2.2)
          | _ =>
            let t := scanFiltersAux fuel r1
            ((String.mk nm, none) :: t.1, c :: nm ++ t.2.1, t.2.2)
      else ([], [], cs)
    | [] => ([], [], cs)

/-- Scan a legacy filter chain. -/
def scanFilters (cs : List Char) : List (String × Option String) × List Char × List Char :=
  scanFiltersAux (cs.length + 1) cs

/-- Modelled from the spec: the fixed filter-name to function-name mapping
used when rewriting legacy notation; an unrecognized name is uppercased. -/
def mapFilterName (n : String) : String :=
  if n = "upper_case" then "UPPER"
  else if n = "lower_case" then "LOWER"
  else if n = "capitalize" then "PROPER"
  else if n = "title_case" then "PROPER"
  else if n = "first_word" then "FIRST_WORD"
  else if n = "remove_first_word" then "REMOVE_FIRST_WORD"
  else toUpperStr n

/-- Modelled from the spec: canonical new-syntax form of a legacy span: a
bare path stays a bare path; a filter chain becomes nested function calls
(time_delta becoming day addition) wrapped in an at-parenthesized group. -/
def legacyRewrite (path : String) (fs : List (String × Option String)) : String :=
  if fs.isEmpty then "@" ++ path
  else
    "@(" ++
      fs.foldl (fun acc f =>
        if f.1 = "time_delta" then acc ++ " + " ++ f.2.getD "0"
        else mapFilterName f.1 ++ "(" ++ acc ++ ")") path ++ ")"

/-- Capitalize: first character uppercased, the rest lowercased. -/
def capitalizeStr (s : String) : String :=
  match s.data with
  | [] => ""
  | c :: cs => String.mk (c.toUpper :: cs.map Char.toLower)

/-- Split a character list at every space. -/
def splitOnSpace : List Char → List (List Char)
  | [] => [[]]
  | c :: cs =>
    let r := splitOnSpace cs
    if c = ' ' then [] :: r
    else
      match r with
      | [] => [[c]]
      | h :: t => (c :: h) :: t

/-- Join word character lists with single spaces. -/
def joinWords : List (List Char) → List Char
  | [] => []
  | [w] => w
  | w :: ws => w ++ ' ' :: joinWords ws

/-- Title-case every space-separated word. -/
def titleCase (s : String) : String :=
  String.mk (joinWords ((splitOnSpace s.data).map (fun w => (capitalizeStr (String.mk w)).data)))

/-- First space-separated word. -/
def firstWord (s : String) : String := String.mk (s.data.takeWhile (fun c => c ≠ ' '))

/-- Everything after the first space (empty when there is no space). -/
def removeFirstWord (s : String) : String :=
  String.mk ((s.data.dropWhile (fun c => c ≠ ' ')).drop 1)

/-- Modelled from the spec: apply one legacy filter to the running string
value; an unknown filter name is a no-op passthrough. -/
def applyFilter (ctx : EvaluationContext) (s : String) (f : String × Option String) : String :=
  if f.1 = "first_word" then firstWord s
  else if f.1 = "remove_first_word" then removeFirstWord s
  else if f.1 = "upper_case" then toUpperStr s
  else if f.1 = "lower_case" then toLowerStr s
  else if f.1 = "capitalize" then capitalizeStr s
  else if f.1 = "title_case" then titleCase s
  else if f.1 = "time_delta" then
    match parseDateStr ctx.dateStyle s, parseDecStr (f.2.getD "0") with
    | some d, some n => formatDT (dtAddDays d (truncToInt n))
    | _, _ => s
  else s

/-- Does the previous character block an at-sign from starting a span? -/
def prevIsIdent : Option Char → Bool
  | some c => identCharB c
  | none => false

/-- Does the character list start with an opening paren? -/
def headIsLParen : List Char → Bool
  | c :: _ => c = '('
  | [] => false

/-- Does the character list start with an identifier-start character? -/
def headIdentStart : List Char → Bool
  | c :: _ => identStartChar c
  | [] => false

/-- Modelled from the spec: one step of the migration scan: consume either a
literal character, an equals-syntax span (rewritten to at-syntax), an
at-parenthesized group (emitted verbatim) or a legacy path-with-filters span
(rewritten through `legacyRewrite`); returns the emitted characters, the new
previous-character and the remainder, or none at the end of input. -/
def migStep (prev : Option Char) (cs : List Char) :
    Option (List Char × Option Char × List Char) :=
  match cs with
  | [] => none
  | c :: rest =>
    if c = '=' then
      if headIsLParen rest then
        match scanBal rest with
        | some (g, r) => some ('@' :: g, some ')', r)
        | none => some ([c], some c, rest)
      else
        let run := rest.takeWhile pathCharB
        if run.isEmpty then some ([c], some c, rest)
        else
          let r1 := rest.dropWhile pathCharB
          if headIsLParen r1 then
            match scanBal r1 with
            | some (g, r2) => some ('@' :: '(' :: (run ++ g ++ [')']), some ')', r2)
            | none => some ('@' :: run, run.getLast?, r1)
          else some ('@' :: run, run.getLast?, r1)
    else if c = '@' then
      if prevIsIdent prev then some ([c], some c, rest)
      else if headIsLParen rest then
        match scanBal rest with
        | some (g, r) => some ('@' :: g, some ')', r)
        | none => some ([c], some c, rest)
      else if headIdentStart rest then
        let run := rest.takeWhile pathCharB
        let r1 := rest.dropWhile pathCharB
        let sf := scanFilters r1
        if sf.1.isEmpty then some ('@' :: run, run.getLast?, r1)
        else some ((legacyRewrite (String.mk run) sf.1).data, some ')', sf.2.2)
      else some ([c], some c, rest)
    else some ([c], some c, rest)

/-- Run the migration scan with the given fuel. -/
def migAux : Nat → Option Char → List Char → List Char
  | 0, _, _ => []
  | fuel + 1, prev, cs =>
    match migStep prev cs with
    | none => []
    | some (e, p, r) => e ++ migAux fuel p r

/-- Modelled from the spec: the migration entry point: a pure, non-evaluating
single pass rewriting legacy notation into canonical new-syntax notation. -/
def migrate_substitutable_text (s : String) : String :=
  String.mk (migAux (s.data.length + 1) none s.data)

/-- Modelled from the spec: one step of the template render scan: literal
characters pass through; an expression region is evaluated and its value
substituted, or, on failure, re-emitted in canonical syntax with its message
collected; a legacy span whose root is not defined in the context passes
through verbatim with no error. -/
def rendStep (ctx : EvaluationContext) (prev : Option Char) (cs : List Char) :
    Option (String × List String × Option Char × List Char) :=
  match cs with
  | [] => none
  | c :: rest =>
    if c = '=' then
      match rest with
      | '(' :: _ =>
        match scanBal rest with
        | some (g, r) =>
          match evaluate_expression ctx (String.mk g) with
          | .ok v => some (valToStr v, [], some ')', r)
          | .error e => some ("@" ++ String.mk g, [e.message], some ')', r)
        | none => some ("=", [], some c, rest)
      | _ =>
        let run := rest.takeWhile pathCharB
        if run.isEmpty then some ("=", [], some c, rest)
        else
          let r1 := rest.dropWhile pathCharB
          match r1 with
          | '(' :: _ =>
            match scanBal r1 with
            | some (g, r2) =>
              let txt := String.mk (run ++ g)
              match evaluate_expression ctx txt with
              | .ok v => some (valToStr v, [], some ')', r2)
              | .error e => some ("@(" ++ txt ++ ")", [e.message], some ')', r2)
            | none =>
              match evaluate_expression ctx (String.mk run) with
              | .ok v => some (valToStr v, [], run.getLast?, r1)
              | .error e => some ("@" ++ String.mk run, [e.message], run.getLast?, r1)
          | _ =>
            match evaluate_expression ctx (String.mk run) with
            | .ok v => some (valToStr v, [], run.getLast?, r1)
            | .error e => some ("@" ++ String.mk run, [e.message], run.getLast?, r1)
    else if c = '@' then
      if prevIsIdent prev then some ("@", [], some c, rest)
      else
        match rest with
        | '(' :: _ =>
          match scanBal rest with
          | some (g, r) =>
            match evaluate_expression ctx (String.mk g) with
            | .ok v => some (valToStr v, [], some ')', r)
            | .error e => some ("@" ++ String.mk g, [e.message], some ')', r)
          | none => some ("@", [], some c, rest)
        | d :: _ =>
          if identStartChar d then
            let run := rest.takeWhile pathCharB
            let r1 := rest.dropWhile pathCharB
            let sf := scanFilters r1
            let path := String.mk run
            let root := String.mk (run.takeWhile (fun ch => ch ≠ '.'))
            let newPrev := (run ++ sf.2.1).getLast?
            if !(rootDefined ctx root) then
              some ("@" ++ String.mk (run ++ sf.2.1), [], newPrev, sf.2.2)
            else
              match lookupVar ctx path with
              | some v =>
                some (sf.1.foldl (applyFilter ctx) (valToStr v), [], newPrev, sf.2.2)
              | none =>
                some (legacyRewrite path sf.1, ["Undefined variable: " ++ path], newPrev, sf.2.2)
          else some ("@", [], some c, rest)
        | [] => some ("@", [], some c, rest)
    else some (String.singleton c, [], some c, rest)

/-- Run the render scan with the given fuel, concatenating substituted text
and collecting error messages left to right. -/
def rendAux (ctx : EvaluationContext) : Nat → Option Char → List Char → String × List String
  | 0, _, _ => ("", [])
  | fuel + 1, prev, cs =>
    match rendStep ctx prev cs with
    | none => ("", [])
    | some (out, errs, p, r) =>
      let t := rendAux ctx fuel p r
      (out ++ t.1, errs ++ t.2)

/-- Modelled from the spec: the render entry point: substitute every
expression region of the template against the context, collecting error
messages in order of appearance. -/
def evaluate_template (ctx : EvaluationContext) (s : String) : String × List String :=
  rendAux ctx (s.data.length + 1) none s.data

/-- The evaluation context of the conformance suite (the variables the claims
exercise): DateStyle DAY_FIRST, UTC times, and flow.joined set to
2014-12-01T09:00 UTC (09:00 is 32400 seconds of day). -/
def conformanceContext : EvaluationContext :=
  ⟨[("contact", .str "Joe Blow"), ("contact.first_name", .str "Joe"),
    ("flow.water_source", .str "Well"),
    ("flow.users", .dec (Dec.ofInt 5)), ("flow.count", .str "5"),
    ("flow.joined", .dt ⟨daysFromCivil 2014 12 1, some 32400⟩),
    ("flow.started", .str "1/12/14 9:00")], .dayFirst⟩

/-- An empty evaluation context. -/
def emptyContext : EvaluationContext := ⟨[], .dayFirst⟩

theorem consFst_some {c : Char} {o : Option (List Char × List Char)} {g r : List Char}
    (h : consFst c o = some (g, r)) : ∃ g2, o = some (g2, r) ∧ g = c :: g2 := by
  cases o with
  | none => simp [consFst] at h
  | some p =>
    obtain ⟨g2, r2⟩ := p
    simp only [consFst, Option.some.injEq, Prod.mk.injEq] at h
    obtain ⟨h1, h2⟩ := h
    subst h1
    subst h2
    exact ⟨g2, rfl, rfl⟩

theorem scanBalAux_spec : ∀ (cs : List Char) (d : Nat) (b : Bool) (g r : List Char),
    scanBalAux d b cs = some (g, r) → g ++ r = cs ∧ g ≠ [] := by
  intro cs
  induction cs with
  | nil => intro d b g r h; simp [scanBalAux] at h
  | cons c t ih =>
    intro d b g r h
    cases b with
    | true =>
      simp only [scanBalAux] at h
      by_cases hq : c = dquoteChar
      · rw [if_pos hq] at h
        obtain ⟨g2, ho, hg⟩ := consFst_some h
        obtain ⟨ha, _⟩ := ih d false g2 r ho
        subst hg
        exact ⟨by simp [ha], by simp⟩
      · rw [if_neg hq] at h
        obtain ⟨g2, ho, hg⟩ := consFst_some h
        obtain ⟨ha, _⟩ := ih d true g2 r ho
        subst hg
        exact ⟨by simp [ha], by simp⟩
    | false =>
      simp only [scanBalAux] at h
      by_cases hl : c = '('
      · rw [if_pos hl] at h
        obtain ⟨g2, ho, hg⟩ := consFst_some h
        obtain ⟨ha, _⟩ := ih (d + 1) false g2 r ho
        subst hg
        exact ⟨by simp [ha], by simp⟩
      · rw [if_neg hl] at h
        by_cases hr : c = ')'
        · rw [if_pos hr] at h
          by_cases hd : d = 1
          · rw [if_pos hd] at h
            simp only [Option.some.injEq, Prod.mk.injEq] at h
            obtain ⟨h1, h2⟩ := h
            subst h1
            subst h2
            exact ⟨rfl, by simp⟩
          · rw [if_neg hd] at h
            obtain ⟨g2, ho, hg⟩ := consFst_some h
            obtain ⟨ha, _⟩ := ih (d - 1) false g2 r ho
            subst hg
            exact ⟨by simp [ha], by simp⟩
        · rw [if_neg hr] at h
          by_cases hq : c = dquoteChar
          · rw [if_pos hq] at h
            obtain ⟨g2, ho, hg⟩ := consFst_some h
            obtain ⟨ha, _⟩ := ih d true g2 r ho
            subst hg
            exact ⟨by simp [ha], by simp⟩
          · rw [if_neg hq] at h
            obtain ⟨g2, ho, hg⟩ := consFst_some h
            obtain ⟨ha, _⟩ := ih d false g2 r ho
            subst hg
            exact ⟨by simp [ha], by simp⟩

theorem scanBalAux_shrink {cs g r : List Char} {d : Nat} {b : Bool}
    (h : scanBalAux d b cs = some (g, r)) : r.length < cs.length := by
  obtain ⟨ha, hg⟩ := scanBalAux_spec cs d b g r h
  have hlen : g.length + r.length = cs.length := by
    rw [← ha, List.length_append]
  have hgpos : 0 < g.length := List.length_pos.mpr hg
  omega

theorem scanFiltersAux_no_pipe (n : Nat) (cs : List Char) (h : '|' ∉ cs) :
    scanFiltersAux (n + 1) cs = ([], [], cs) := by
  cases cs with
  | nil => rfl
  | cons c t =>
    have hc : ¬ c = '|' := by
      intro he
      apply h
      rw [← he]
      exact List.mem_cons_self c t
    simp [scanFiltersAux, hc]

theorem scanFilters_no_pipe (cs : List Char) (h : '|' ∉ cs) :
    scanFilters cs = ([], [], cs) :=
  scanFiltersAux_no_pipe cs.length cs h

theorem mem_of_mem_dropWhile {p : Char → Bool} {l : List Char} {x : Char}
    (h : x ∈ l.dropWhile p) : x ∈ l := by
  have ht : l.takeWhile p ++ l.dropWhile p = l := List.takeWhile_append_dropWhile p l
  rw [← ht]
  exact List.mem_append_right _ h

theorem length_dropWhile_le (p : Char → Bool) (l : List Char) :
    (l.dropWhile p).length ≤ l.length := by
  have ht : l.takeWhile p ++ l.dropWhile p = l := List.takeWhile_append_dropWhile p l
  have := congrArg List.length ht
  rw [List.length_append] at this
  omega

theorem migStep_eq_free (prev : Option Char) (c : Char) (t : List Char)
    (he : '=' ∉ c :: t) (hp : '|' ∉ c :: t) :
    ∃ e p r, migStep prev (c :: t) = some (e, p, r) ∧ e ++ r = c :: t ∧
      r.length < (c :: t).length := by
  have hce : ¬ c = '=' := by
    intro h1
    apply he
    rw [← h1]
    exact List.mem_cons_self c t
  by_cases hca : c = '@'
  · subst hca
    by_cases hpi : prevIsIdent prev = true
    · exact ⟨['@'], some '@', t, by simp [migStep, hpi], rfl, by simp⟩
    · by_cases hlp : headIsLParen t = true
      · cases hsb : scanBal t with
        | none =>
          exact ⟨['@'], some '@', t, by simp [migStep, hpi, hlp, hsb], rfl, by simp⟩
        | some gr =>
          obtain ⟨g, r⟩ := gr
          obtain ⟨ha, _⟩ := scanBalAux_spec t 0 false g r hsb
          refine ⟨'@' :: g, some ')', r, by simp [migStep, hpi, hlp, hsb], by simp [ha], ?_⟩
          have := @scanBalAux_shrink t g r 0 false hsb
          simp only [List.length_cons]
          omega
      · by_cases his : headIdentStart t = true
        · have hpipe1 : '|' ∉ t.dropWhile pathCharB := by
            intro hx
            exact hp (List.mem_cons_of_mem _ (mem_of_mem_dropWhile hx))
          have hsf : scanFilters (t.dropWhile pathCharB) = ([], [], t.dropWhile pathCharB) :=
            scanFilters_no_pipe _ hpipe1
          refine ⟨'@' :: t.takeWhile pathCharB, (t.takeWhile pathCharB).getLast?,
            t.dropWhile pathCharB, by simp [migStep, hpi, hlp, his, hsf], ?_, ?_⟩
          · simp [List.takeWhile_append_dropWhile]
          · have := length_dropWhile_le pathCharB t
            simp only [List.length_cons]
            omega
        · exact ⟨['@'], some '@', t, by simp [migStep, hpi, hlp, his], rfl, by simp⟩
  · exact ⟨[c], some c, t, by simp [migStep, hce, hca], rfl, by simp⟩

theorem migAux_eq_free : ∀ (fuel : Nat) (prev : Option Char) (cs : List Char),
    cs.length < fuel → '=' ∉ cs → '|' ∉ cs → migAux fuel prev cs = cs := by
  intro fuel
  induction fuel with
  | zero => intro prev cs h _ _; exact absurd h (Nat.not_lt_zero _)
  | succ f ih =>
    intro prev cs hlen he hp
    cases cs with
    | nil => simp [migAux, migStep]
    | cons c t =>
      obtain ⟨e, p, r, hstep, happ, hshr⟩ := migStep_eq_free prev c t he hp
      have hsub : ∀ x, x ∈ r → x ∈ c :: t := by
        intro x hx
        rw [← happ]
        exact List.mem_append_right e hx
      have hrlen : r.length < f := by
        have h1 : r.length < t.length + 1 := by simpa using hshr
        have h2 : t.length + 1 < f + 1 := by simpa using hlen
        omega
      calc migAux (f + 1) prev (c :: t) = e ++ migAux f p r := by simp [migAux, hstep]
        _ = e ++ r := by rw [ih p r hrlen (fun hx => he (hsub _ hx)) (fun hx => hp (hsub _ hx))]
        _ = c :: t := happ

theorem migrate_fixed_of_marker_free (s : String) (he : '=' ∉ s.data) (hp : '|' ∉ s.data) :
    migrate_substitutable_text s = s := by
  unfold migrate_substitutable_text
  rw [migAux_eq_free (s.data.length + 1) none s.data (Nat.lt_succ_self _) he hp]

/-- Claim C1: evaluation of one expression region never aborts evaluation of
the rest: a failing region is re-emitted in canonical at-syntax and its
message appended in left-to-right order; in particular rendering
"=flow.water_source =flow.boil" with flow.water_source defined and flow.boil
absent yields "Well @flow.boil" with the single error
"Undefined variable: flow.boil" (and a failing region followed by a
succeeding one still renders the later one). -/
theorem expression_failure_does_not_abort_template :
    evaluate_template conformanceContext "=flow.water_source =flow.boil" =
      ("Well @flow.boil", ["Undefined variable: flow.boil"]) ∧
    evaluate_template conformanceContext "=flow.boil =flow.water_source" =
      ("@flow.boil Well", ["Undefined variable: flow.boil"]) :=
  ⟨rfl, rfl⟩

/-- Claim C2: the parser implements the stated operator precedence, so
evaluating "2 + 3 ^ 4 * 5 / 6 - 7" over any context gives Decimal 62.5
(the fraction 125/2). -/
theorem operator_precedence_eval (ctx : EvaluationContext) :
    evaluate_expression ctx "2 + 3 ^ 4 * 5 / 6 - 7" = .ok (.dec (mkDec 125 2)) := rfl

/-- Witness for C2 at the empty context. -/
theorem operator_precedence_eval_witness :
    evaluate_expression emptyContext "2 + 3 ^ 4 * 5 / 6 - 7" = .ok (.dec (mkDec 125 2)) :=
  operator_precedence_eval emptyContext

/-- Claim C3: date arithmetic: with flow.joined = 2014-12-01T09:00 UTC, a
Decimal operand of + or - acts as whole days
("Date: =(flow.joined + 1)" renders "Date: 02-12-2014 09:00" with no
errors), while a TIME duration acts as a time-of-day delta (adding and
subtracting TIME(2, 30, 0) shifts the clock time). -/
theorem date_arithmetic_render :
    evaluate_template conformanceContext "Date: =(flow.joined + 1)" =
      ("Date: 02-12-2014 09:00", []) ∧
    evaluate_template conformanceContext "Date: =(flow.joined + TIME(2, 30, 0))" =
      ("Date: 01-12-2014 11:30", []) ∧
    evaluate_template conformanceContext "Date: =(flow.joined - TIME(2, 30, 0))" =
      ("Date: 01-12-2014 06:30", []) :=
  ⟨rfl, rfl, rfl⟩

/-- Claim C4 (amended): the syntax migrator is not idempotent on every
string, but on text containing neither an equals sign nor a filter pipe it
is the identity, hence idempotent there (this covers already-canonical text
such as "Hi @contact.name from @flow.chw"). -/
theorem migrate_idempotent_on_marker_free (s : String)
    (he : '=' ∉ s.data) (hp : '|' ∉ s.data) :
    migrate_substitutable_text (migrate_substitutable_text s) = migrate_substitutable_text s := by
  rw [migrate_fixed_of_marker_free s he hp, migrate_fixed_of_marker_free s he hp]

/-- Counterexample to C4 as stated: on "x=(a=b)" the first pass yields
"x@(a=b)" and the second pass, no longer seeing a span at the at-sign (its
preceding character is an identifier character), rewrites the inner "=b" and
yields "x@(a@b)". -/
theorem migrate_not_idempotent_counterexample :
    migrate_substitutable_text (migrate_substitutable_text "x=(a=b)") ≠
      migrate_substitutable_text "x=(a=b)" := by decide

/-- Witness for the amended C4 on the already-canonical conformance text. -/
theorem migrate_idempotent_witness :
    ('=' ∉ "Hi @contact.name from @flow.chw".data) ∧
    ('|' ∉ "Hi @contact.name from @flow.chw".data) ∧
    migrate_substitutable_text (migrate_substitutable_text "Hi @contact.name from @flow.chw") =
      migrate_substitutable_text "Hi @contact.name from @flow.chw" :=
  ⟨by decide, by decide, migrate_idempotent_on_marker_free _ (by decide) (by decide)⟩

/-- Claim C5: string equality under = is case-insensitive while string
ordering under < and > is case-sensitive lexicographic comparison over code
points, in any context. -/
theorem string_equality_and_ordering (ctx : EvaluationContext) :
    evaluate_expression ctx "\"abc\" = \"ABC\"" = .ok (.bool true) ∧
    evaluate_expression ctx "\"b\" < \"c\"" = .ok (.bool true) ∧
    evaluate_expression ctx "\"b\" > \"c\"" = .ok (.bool false) :=
  ⟨rfl, rfl, rfl⟩

/-- Witness for C5 at the empty context. -/
theorem string_equality_and_ordering_witness :
    evaluate_expression emptyContext "\"abc\" = \"ABC\"" = .ok (.bool true) ∧
    evaluate_expression emptyContext "\"b\" < \"c\"" = .ok (.bool true) ∧
    evaluate_expression emptyContext "\"b\" > \"c\"" = .ok (.bool false) :=
  string_equality_and_ordering emptyContext

/-- Claim C6: evaluating "2 / 0" fails with DivisionByZero in any context,
and rendering the region "=(2 / 0)" re-emits it as "@(2 / 0)" with the
message "Division by zero" appended to the error list. -/
theorem division_by_zero_eval_and_render :
    (∀ ctx : EvaluationContext, evaluate_expression ctx "2 / 0" = .error .divisionByZero) ∧
    evaluate_template conformanceContext "Error: =(2 / 0)" =
      ("Error: @(2 / 0)", ["Division by zero"]) :=
  ⟨fun _ => rfl, rfl⟩

/-- Claim C7: the legacy filter pipeline applies filters left to right to
the stringified root value, and an unknown filter name is a no-op
passthrough: with contact stringifying to "Joe Blow",
"Hello @contact|remove_first_word|title_case" renders "Hello Blow", and
"Hello @contact.first_name|notthere" renders "Hello Joe" with no errors. -/
theorem legacy_filter_pipeline_render :
    evaluate_template conformanceContext "Hello @contact|remove_first_word|title_case" =
      ("Hello Blow", []) ∧
    evaluate_template conformanceContext "Hello @contact.first_name|notthere" =
      ("Hello Joe", []) :=
  ⟨rfl, rfl⟩

/-- Claim C8: an at-sign preceded by an identifier character is not an
expression marker: "foo@nicpottier.com" renders unchanged with no errors,
and "Hello @contact.first_name from info@example.com" substitutes only the
first at-expression. -/
theorem email_at_sign_not_expression :
    evaluate_template conformanceContext "foo@nicpottier.com" = ("foo@nicpottier.com", []) ∧
    evaluate_template conformanceContext "Hello @contact.first_name from info@example.com" =
      ("Hello Joe from info@example.com", []) :=
  ⟨rfl, rfl⟩

/-- Claim C9: a legacy at-span whose root is not a defined top-level context
variable is emitted unchanged with no error recorded
("@nicpottier is on twitter" renders unchanged with an empty error list),
in contrast to a new-syntax lookup of an absent path, which records an
Undefined variable error and is re-emitted canonically. -/
theorem legacy_undefined_root_passthrough :
    evaluate_template conformanceContext "@nicpottier is on twitter" =
      ("@nicpottier is on twitter", []) ∧
    evaluate_template conformanceContext "=flow.boil" =
      ("@flow.boil", ["Undefined variable: flow.boil"]) :=
  ⟨rfl, rfl⟩

/-- Claim C10: a String operand that parses as a date under the context
DateStyle participates in date arithmetic like a DateTime: with flow.started
= "1/12/14 9:00" and DateStyle DAY_FIRST in UTC, "Date: =(flow.started - 3)"
renders "Date: 28-11-2014 09:00" with no errors. -/
theorem date_like_string_arithmetic :
    evaluate_template conformanceContext "Date: =(flow.started - 3)" =
      ("Date: 28-11-2014 09:00", []) := rfl

end Rapidpro
